import Mathlib

/-!
Verification of `src/sui/sui_types.py`: classification of JSON-like records
describing on-chain objects into a typed hierarchy.

The shallow embedding models JSON-like Python values with the mutual
inductive `JValue`/`JEntries` (an entry list preserves Python's dict
insertion order; Python dicts never hold duplicate keys, which theorems
assume where it matters).  Python exceptions (`KeyError`, `IndexError`,
`TypeError`/`AttributeError`) are modelled by `SuiErr`; fallible
construction returns `Except SuiErr _` and the order of the monadic reads
mirrors the order of the subscript expressions in the source, so the error
surfaced when several fields are missing identifies which subscript Python
evaluates first.
-/

mutual

inductive JValue where
  | jstr : String → JValue
  | jnum : Nat → JValue
  | jbool : Bool → JValue
  | jobj : JEntries → JValue

inductive JEntries where
  | nil : JEntries
  | cons : String → JValue → JEntries → JEntries

end

/-- Python exceptions raised by the module: `keyError k` models `KeyError`
    on a missing dict key (the spec calls it `MissingFieldError`),
    `indexError` models `IndexError` from list indexing, and `typeError`
    models `TypeError`/`AttributeError` from subscripting or calling a
    string method on a value of the wrong shape. -/
inductive SuiErr where
  | keyError : String → SuiErr
  | indexError : SuiErr
  | typeError : SuiErr
deriving DecidableEq

/-- Python `d[k]` on a dict: the value at the first (unique) matching key,
    or `KeyError`. -/
def dget : JEntries → String → Except SuiErr JValue
  | .nil, k => .error (.keyError k)
  | .cons k0 v es, k => if k0 = k then .ok v else dget es k

/-- Python `d[k] = v` on a dict: replace the value in place if the key is
    present, else append the new entry at the end (insertion order). -/
def dset : JEntries → String → JValue → JEntries
  | .nil, k, v => .cons k v .nil
  | .cons k0 v0 es, k, v => if k0 = k then .cons k0 v es else .cons k0 v0 (dset es k v)

/-- Python `x[k]` where `x` is an arbitrary value: `TypeError` unless `x`
    is a dict. -/
def vget (x : JValue) (k : String) : Except SuiErr JValue :=
  match x with
  | .jobj es => dget es k
  | _ => .error .typeError

/-- Using a value as a `str` (e.g. calling `.split` on it): models Python's
    `AttributeError` when the value is not a string. -/
def asStr (x : JValue) : Except SuiErr String :=
  match x with
  | .jstr s => .ok s
  | _ => .error .typeError

/-- Using a value as a dict (e.g. assigning into it or iterating
    `.items()`): `TypeError` when it is not a dict. -/
def asEntries (x : JValue) : Except SuiErr JEntries :=
  match x with
  | .jobj es => .ok es
  | _ => .error .typeError

/-- Python `l[i]` on a list: `IndexError` when out of range. -/
def lidx {α : Type} : List α → Nat → Except SuiErr α
  | [], _ => .error .indexError
  | x :: _, 0 => .ok x
  | _ :: xs, n + 1 => lidx xs n

/-- The keys of a dict, in order. -/
def JEntries.keys : JEntries → List String
  | .nil => []
  | .cons k _ es => k :: JEntries.keys es

/-- Concatenation of entry lists. -/
def eappend : JEntries → JEntries → JEntries
  | .nil, bs => bs
  | .cons k v es, bs => .cons k v (eappend es bs)

/-- The entries of a dict with the `"id"` entry removed, order preserved:
    the specification-side description of the field copy performed by
    `SuiDataType.__init__` (source lines 222-224). -/
def fieldsExceptId : JEntries → JEntries
  | .nil => .nil
  | .cons k v es => if k = "id" then fieldsExceptId es else .cons k v (fieldsExceptId es)

/-- The loop `for key, value in fields.items(): if not key == "id":
    data[key] = value` of `SuiDataType.__init__` (source lines 222-224),
    threading the accumulating `_data` dict. -/
def copyFieldsGo : JEntries → JEntries → JEntries
  | acc, .nil => acc
  | acc, .cons k v es => copyFieldsGo (if k = "id" then acc else dset acc k v) es

/-- The `_data` dict built by `SuiDataType.__init__`, starting from `{}`. -/
def copyFields (fs : JEntries) : JEntries := copyFieldsGo .nil fs

/-- Whether the character list `sep` starts the character list `cs`. -/
def swp : List Char → List Char → Bool
  | [], _ => true
  | _ :: _, [] => false
  | s :: ss, c :: cs => s = c && swp ss cs

/-- First occurrence of `sep` in `cs`: the part before it and the part
    after it (left-to-right scan, as Python `str.split` does). -/
def findSep (sep : List Char) : List Char → Option (List Char × List Char)
  | [] => if swp sep [] then some ([], []) else none
  | c :: rest =>
    if swp sep (c :: rest) then some ([], (c :: rest).drop sep.length)
    else
      match findSep sep rest with
      | none => none
      | some (pre, post) => some (c :: pre, post)

/-- Python `s.split(sep, maxsplit)`: split at most `maxsplit` times,
    left to right; the final piece keeps the rest verbatim. -/
def splitMaxGo (sep : List Char) : Nat → List Char → List (List Char)
  | 0, cs => [cs]
  | n + 1, cs =>
    match findSep sep cs with
    | none => [cs]
    | some (pre, post) => pre :: splitMaxGo sep n post

/-- The separator `"::"` used by both classifiers. -/
def sepCC : List Char := [':', ':']

/-- Python `s.split("::", 2)` (source lines 297 and 320). -/
def pySplit2 (s : String) : List String :=
  (splitMaxGo sepCC 2 s.data).map String.mk

/-- Python `s.split("::")` with no limit (source lines 301 and 325): a
    character list can be split at most `length` times, so that much fuel
    is exact. -/
def pySplitAll (s : String) : List String :=
  (splitMaxGo sepCC s.data.length s.data).map String.mk

/-- Python `s[5:-1]` (source lines 301 and 325): drop the first five
    characters and the last one, with Python's slice clamping. -/
def pySlice5m1 (s : String) : String :=
  String.mk ((s.data.drop 5).dropLast)

/-- The five classification outcomes shared by the two classifiers.  The
    correspondence with the source classes: `generic` is
    `ObjectInfo`/`ObjectRead`, `dataTag` is `SuiDataDescriptor`/`SuiDataType`,
    `nftTag` is `SuiNftDescriptor`/`SuiNftType`, `coinTag` is
    `SuiCoinDescriptor`/`SuiCoinType`, `nativeCoinTag` is
    `SuiNativeCoinDescriptor`/`SuiGasType`. -/
inductive SuiTypeTag where
  | generic : SuiTypeTag
  | dataTag : SuiTypeTag
  | nftTag : SuiTypeTag
  | coinTag : SuiTypeTag
  | nativeCoinTag : SuiTypeTag
deriving DecidableEq

/-- The branch structure shared verbatim by `from_object_descriptor`
    (source lines 297-312) and `from_object_type` (source lines 320-335):
    split the signature on `"::"` at most twice; under package `"0x2"`
    dispatch on the module (`coin` unwraps the generic argument and tests
    its third component against `"SUI"`; `devnet_nft` tests the residual
    against `"DevNetNFT"`); otherwise a three-part signature is structured
    data; everything that falls through is the generic fallback.  List
    indexing out of range is Python's `IndexError`. -/
def classifySignature (ts : String) : Except SuiErr SuiTypeTag :=
  let split := pySplit2 ts
  match lidx split 0 with
  | .error e => .error e
  | .ok s0 =>
    if s0 = "0x2" then
      match lidx split 1 with
      | .error e => .error e
      | .ok s1 =>
        if s1 = "coin" then
          match lidx split 2 with
          | .error e => .error e
          | .ok s2 =>
            match lidx (pySplitAll (pySlice5m1 s2)) 2 with
            | .error e => .error e
            | .ok c2 => if c2 = "SUI" then .ok .nativeCoinTag else .ok .coinTag
        else if s1 = "devnet_nft" then
          match lidx split 2 with
          | .error e => .error e
          | .ok s2 => if s2 = "DevNetNFT" then .ok .nftTag else .ok .generic
        else .ok .generic
    else if split.length = 3 then .ok .dataTag
    else .ok .generic

/-- A constructed descriptor (`ObjectInfo` and its bare subclasses, source
    lines 57-109): the retained raw input plus the fields extracted by
    `ObjectInfo.__init__`, tagged with the subclass the classifier chose.
    The structure fields are the Python properties: `version`, `digest`,
    `owner`, `previous_transaction`, `type_signature`; `identifier` is the
    value wrapped by `ObjectID` (which stores it unchanged, source lines
    30-33); `type_raw` is `_type_raw`. -/
structure ObjectInfo where
  identifier : JValue
  version : JValue
  digest : JValue
  owner : JValue
  previous_transaction : JValue
  type_signature : JValue
  type_raw : JEntries
  variant : SuiTypeTag

/-- `ObjectInfo.__init__` (source lines 60-68): the fields are read from
    the input mapping in source order - `objectId` first (line 62, as the
    argument of `ObjectID`), then `version`, `digest`,
    `owner["AddressOwner"]`, `previousTransaction`, `type`.  A missing key
    raises `KeyError` at that point and nothing is returned. -/
def mkObjectInfo (indata : JEntries) (variant : SuiTypeTag) : Except SuiErr ObjectInfo :=
  match dget indata "objectId" with
  | .error e => .error e
  | .ok oid =>
    match dget indata "version" with
    | .error e => .error e
    | .ok ver =>
      match dget indata "digest" with
      | .error e => .error e
      | .ok dig =>
        match dget indata "owner" with
        | .error e => .error e
        | .ok ow =>
          match vget ow "AddressOwner" with
          | .error e => .error e
          | .ok addr =>
            match dget indata "previousTransaction" with
            | .error e => .error e
            | .ok ptx =>
              match dget indata "type" with
              | .error e => .error e
              | .ok tsv =>
                .ok { identifier := oid, version := ver, digest := dig,
                      owner := addr, previous_transaction := ptx,
                      type_signature := tsv, type_raw := indata,
                      variant := variant }

/-- `from_object_descriptor` (source lines 294-312): read and split the
    `type` signature, classify it, then construct the chosen descriptor
    variant from the whole input mapping. -/
def from_object_descriptor (indata : JEntries) : Except SuiErr ObjectInfo :=
  match dget indata "type" with
  | .error e => .error e
  | .ok tv =>
    match asStr tv with
    | .error e => .error e
    | .ok ts =>
      match classifySignature ts with
      | .error e => .error e
      | .ok tag => mkObjectInfo indata tag

/-- The fields shared by every full object (`ObjectRead.__init__`, source
    lines 132-140).  `version` and `digest` are deliberately absent: the
    source stores no copy of them and the accessors delegate to the
    attached descriptor (source lines 142-150). -/
structure ObjectReadCore where
  identifier : JValue
  type_signature : JValue
  data_type : JValue
  has_public_transfer : JValue
  descriptor : ObjectInfo
  previous_transaction : JValue
  storage_rebate : JValue
  type_raw : JEntries

/-- A constructed full object: one constructor per concrete class
    (`ObjectRead`, `SuiNftType`, `SuiDataType`, `SuiCoinType`,
    `SuiGasType`), each carrying the shared core plus the fields its
    `__init__` adds (source lines 129-276). -/
inductive ObjectRead where
  | objectRead : ObjectReadCore → ObjectRead
  | suiNftType : ObjectReadCore → JValue → JValue → JValue → ObjectRead
  | suiDataType : ObjectReadCore → List (String × String) → JEntries → List ObjectRead → ObjectRead
  | suiCoinType : ObjectReadCore → ObjectRead
  | suiGasType : ObjectReadCore → JValue → ObjectRead

/-- `ObjectRead.__init__` (source lines 132-140), in source read order:
    `fields.id.id` (the `ObjectID` argument on line 134), then `type`,
    `dataType`, `has_public_transfer`, the descriptor reference,
    `previousTransaction`, `storageRebate`. -/
def mkObjectReadCore (indata : JEntries) (descriptor : ObjectInfo) : Except SuiErr ObjectReadCore :=
  match dget indata "fields" with
  | .error e => .error e
  | .ok fv =>
    match vget fv "id" with
    | .error e => .error e
    | .ok iv =>
      match vget iv "id" with
      | .error e => .error e
      | .ok idv =>
        match dget indata "type" with
        | .error e => .error e
        | .ok tsv =>
          match dget indata "dataType" with
          | .error e => .error e
          | .ok dt =>
            match dget indata "has_public_transfer" with
            | .error e => .error e
            | .ok hpt =>
              match dget indata "previousTransaction" with
              | .error e => .error e
              | .ok ptx =>
                match dget indata "storageRebate" with
                | .error e => .error e
                | .ok sr =>
                  .ok { identifier := idv, type_signature := tsv,
                        data_type := dt, has_public_transfer := hpt,
                        descriptor := descriptor,
                        previous_transaction := ptx, storage_rebate := sr,
                        type_raw := indata }

/-- The keys zipped against the split signature by `SuiDataType.__init__`
    (source line 221). -/
def pmKeys : List String := ["package", "module", "structure"]

/-- The dispatch half of `from_object_type` (source lines 320-335) acting
    on the already-mutated `data` mapping: classify the signature, run the
    chosen class's constructor chain (shared core first, then the fields
    the subclass adds, in source order: `SuiGasType` reads
    `fields.balance`, `SuiNftType` reads `fields.description`, `.name`,
    `.url`, `SuiDataType` zips the split signature into
    `_data_definition` and copies `fields` minus `id` into `_data` with an
    empty child list). -/
def objectFromData (descriptor : ObjectInfo) (indata : JEntries) : Except SuiErr ObjectRead :=
  match dget indata "type" with
  | .error e => .error e
  | .ok tv =>
    match asStr tv with
    | .error e => .error e
    | .ok ts =>
      match classifySignature ts with
      | .error e => .error e
      | .ok tag =>
        match mkObjectReadCore indata descriptor with
        | .error e => .error e
        | .ok core =>
          match tag with
          | .generic => .ok (.objectRead core)
          | .nativeCoinTag =>
            match dget indata "fields" with
            | .error e => .error e
            | .ok fv =>
              match vget fv "balance" with
              | .error e => .error e
              | .ok bal => .ok (.suiGasType core bal)
          | .coinTag => .ok (.suiCoinType core)
          | .nftTag =>
            match dget indata "fields" with
            | .error e => .error e
            | .ok fv =>
              match vget fv "description" with
              | .error e => .error e
              | .ok dsc =>
                match vget fv "name" with
                | .error e => .error e
                | .ok nm =>
                  match vget fv "url" with
                  | .error e => .error e
                  | .ok url => .ok (.suiNftType core dsc nm url)
          | .dataTag =>
            match dget indata "fields" with
            | .error e => .error e
            | .ok fv =>
              match asEntries fv with
              | .error e => .error e
              | .ok fents =>
                .ok (.suiDataType core (List.zip pmKeys (pySplit2 ts)) (copyFields fents) [])

/-- `from_object_type` (source lines 315-335).  The source first rebinds
    `indata = inblock["data"]` and assigns `previousTransaction` and
    `storageRebate` into that nested dict, mutating the caller's mapping;
    the embedding makes the effect explicit by returning, next to the
    classification result, the final contents of `inblock` as the caller
    observes them.  Each right-hand side is read before its assignment, so
    a missing `storageRebate` leaves the first assignment visible. -/
def from_object_type (descriptor : ObjectInfo) (inblock : JEntries) :
    Except SuiErr ObjectRead × JEntries :=
  match dget inblock "data" with
  | .error e => (.error e, inblock)
  | .ok dv =>
    match asEntries dv with
    | .error e => (.error e, inblock)
    | .ok d0 =>
      match dget inblock "previousTransaction" with
      | .error e => (.error e, inblock)
      | .ok ptx =>
        match dget inblock "storageRebate" with
        | .error e => (.error e, dset inblock "data" (.jobj (dset d0 "previousTransaction" ptx)))
        | .ok sr =>
          let d2 := dset (dset d0 "previousTransaction" ptx) "storageRebate" sr
          (objectFromData descriptor d2, dset inblock "data" (.jobj d2))

/-- The shared core of a constructed object. -/
def ObjectRead.core : ObjectRead → ObjectReadCore
  | .objectRead c => c
  | .suiNftType c _ _ _ => c
  | .suiDataType c _ _ _ => c
  | .suiCoinType c => c
  | .suiGasType c _ => c

/-- Which class the object was constructed as. -/
def ObjectRead.tagOf : ObjectRead → SuiTypeTag
  | .objectRead _ => .generic
  | .suiNftType _ _ _ _ => .nftTag
  | .suiDataType _ _ _ _ => .dataTag
  | .suiCoinType _ => .coinTag
  | .suiGasType _ _ => .nativeCoinTag

/-- The `ObjectRead.version` property (source lines 142-145): a pure
    delegation to the attached descriptor. -/
def ObjectRead.version (o : ObjectRead) : JValue := o.core.descriptor.version

/-- The `ObjectRead.digest` property (source lines 147-150): a pure
    delegation to the attached descriptor. -/
def ObjectRead.digest (o : ObjectRead) : JValue := o.core.descriptor.digest

/-- The `ObjectRead.descriptor` property (source lines 177-180). -/
def ObjectRead.descriptor (o : ObjectRead) : ObjectInfo := o.core.descriptor

/-- Whether the object is the structured-data variant `SuiDataType`. -/
def ObjectRead.isDataType : ObjectRead → Bool
  | .suiDataType _ _ _ _ => true
  | _ => false

/-- The `_data_definition` dict of a `SuiDataType` (source line 221); only
    the structured-data class has it. -/
def ObjectRead.data_definition : ObjectRead → List (String × String)
  | .suiDataType _ dd _ _ => dd
  | _ => []

/-- The `_data` dict of a `SuiDataType` (source lines 219, 222-224); only
    the structured-data class has it. -/
def ObjectRead.dataOf : ObjectRead → JEntries
  | .suiDataType _ _ d _ => d
  | _ => .nil

/-- The `_children` list of a `SuiDataType` (source lines 218, 251-254);
    only the structured-data class has it. -/
def ObjectRead.children : ObjectRead → List ObjectRead
  | .suiDataType _ _ _ cs => cs
  | _ => []

/-- Lookup in the `_data_definition` dict (Python subscripting, `KeyError`
    on a missing key), backing the `package`, `module` and `structure`
    properties (source lines 231-244). -/
def ddGet : List (String × String) → String → Except SuiErr String
  | [], k => .error (.keyError k)
  | (k0, v) :: rest, k => if k0 = k then .ok v else ddGet rest k

/-- The `SuiDataType.package` property (source lines 231-234). -/
def ObjectRead.package (o : ObjectRead) : Except SuiErr String :=
  ddGet o.data_definition "package"

/-- The `SuiDataType.module` property (source lines 236-239). -/
def ObjectRead.module (o : ObjectRead) : Except SuiErr String :=
  ddGet o.data_definition "module"

/-- The `SuiDataType.structure` property (source lines 241-244; named
    `structureName` here because `structure` is a Lean keyword). -/
def ObjectRead.structureName (o : ObjectRead) : Except SuiErr String :=
  ddGet o.data_definition "structure"

/-- `SuiDataType.add_child` (source lines 256-258): append the child to
    the parent's child list; defined only on the structured-data variant
    (the source defines the method only on `SuiDataType`), other variants
    are returned unchanged. -/
def add_child (parent child : ObjectRead) : ObjectRead :=
  match parent with
  | .suiDataType core dd dm cs => .suiDataType core dd dm (cs ++ [child])
  | other => other

/-- Decimal digits of `n`, most significant first, accumulator style (the
    shape of Python's integer-to-decimal conversion used by
    `json.dumps`); `fuel` bounds the recursion and `n < fuel` is always
    enough. -/
def natCharsAux : Nat → Nat → List Char → List Char
  | 0, _, acc => acc
  | fuel + 1, n, acc =>
    let d := Char.ofNat (48 + n % 10)
    if n < 10 then d :: acc else natCharsAux fuel (n / 10) (d :: acc)

/-- Decimal representation of `n`. -/
def natChars (n : Nat) : List Char := natCharsAux (n + 1) n []

mutual

/-- The characters `json.dumps` emits for a value with the default
    separators `", "` and `": "` (source lines 48-50 and 120-122 dump
    `_type_raw` this way).  Strings are emitted verbatim between quotes,
    which is exact for strings that need no JSON escaping (the `cleanV`
    hypothesis of the round-trip theorems). -/
def jdumpChars : JValue → List Char
  | .jstr s => '"' :: s.data ++ ['"']
  | .jnum n => natChars n
  | .jbool true => ['t', 'r', 'u', 'e']
  | .jbool false => ['f', 'a', 'l', 's', 'e']
  | .jobj .nil => ['\x7b', '\x7d']
  | .jobj (.cons k v es) =>
      '\x7b' :: '"' :: k.data ++ '"' :: ':' :: ' ' :: jdumpChars v ++ entsTail es ++ ['\x7d']

/-- The `", key: value"` continuation for each dict entry after the
    first. -/
def entsTail : JEntries → List Char
  | .nil => []
  | .cons k v es =>
      ',' :: ' ' :: '"' :: k.data ++ '"' :: ':' :: ' ' :: jdumpChars v ++ entsTail es

end

/-- `json.dumps` as a string. -/
def jdumps (v : JValue) : String := String.mk (jdumpChars v)

/-- The `json()` method of every descriptor (`SuiRawDescriptor.json`,
    source lines 48-50): dump the retained raw input mapping. -/
def ObjectInfo.json (d : ObjectInfo) : String := jdumps (.jobj d.type_raw)

/-- The `json()` method of every full object (`SuiRawObject.json`, source
    lines 120-122): dump the retained raw content mapping. -/
def ObjectRead.json (o : ObjectRead) : String := jdumps (.jobj o.core.type_raw)

/-- A character a JSON string can hold verbatim: printable ASCII other
    than the quote and the backslash (anything else `json.dumps` would
    escape). -/
def cleanChar (c : Char) : Bool :=
  decide (32 ≤ c.toNat) && decide (c.toNat ≤ 126) && (c.toNat != 34) && (c.toNat != 92)

/-- A string `json.dumps` emits verbatim. -/
def cleanS (s : String) : Bool := s.data.all cleanChar

mutual

/-- A value all of whose strings (keys and string values) need no JSON
    escaping. -/
def cleanV : JValue → Bool
  | .jstr s => cleanS s
  | .jnum _ => true
  | .jbool _ => true
  | .jobj es => cleanE es

/-- `cleanV` on every entry of a dict. -/
def cleanE : JEntries → Bool
  | .nil => true
  | .cons k v es => cleanS k && cleanV v && cleanE es

end

/-- Read a JSON string body up to the closing quote. -/
def parseStrBody : List Char → Option (List Char × List Char)
  | [] => none
  | c :: cs =>
    if c = '"' then some ([], cs)
    else
      match parseStrBody cs with
      | none => none
      | some (body, rest) => some (c :: body, rest)

/-- Whether a character is a decimal digit. -/
def isDig (c : Char) : Bool :=
  decide (48 ≤ c.toNat) && decide (c.toNat ≤ 57)

/-- Take the leading run of decimal digits. -/
def parseDigits : List Char → List Char × List Char
  | [] => ([], [])
  | c :: cs =>
    if isDig c then
      let p := parseDigits cs
      (c :: p.1, p.2)
    else ([], c :: cs)

/-- The number named by a digit run. -/
def digitsToNat (ds : List Char) : Nat :=
  ds.foldl (fun n c => n * 10 + (c.toNat - 48)) 0

/-- True when the list does not start with a digit (so a parsed number
    cannot swallow following characters). -/
def noDigitHead : List Char → Bool
  | [] => true
  | c :: _ => !isDig c

mutual

/-- Recursive-descent parser for the exact output format of `jdumpChars`
    (`json.loads` restricted to that grammar); `fuel` bounds the nesting
    and any `fuel` larger than the input length is enough. -/
def parseVal : Nat → List Char → Option (JValue × List Char)
  | 0, _ => none
  | fuel + 1, cs =>
    match cs with
    | [] => none
    | c :: rest =>
      if c = '"' then
        match parseStrBody rest with
        | none => none
        | some (body, rest2) => some (.jstr (String.mk body), rest2)
      else if isDig c then
        let p := parseDigits (c :: rest)
        some (.jnum (digitsToNat p.1), p.2)
      else if c = 't' then
        match rest with
        | 'r' :: 'u' :: 'e' :: rest2 => some (.jbool true, rest2)
        | _ => none
      else if c = 'f' then
        match rest with
        | 'a' :: 'l' :: 's' :: 'e' :: rest2 => some (.jbool false, rest2)
        | _ => none
      else if c = '\x7b' then
        match rest with
        | '\x7d' :: rest2 => some (.jobj .nil, rest2)
        | _ =>
          match parseEntries fuel rest with
          | none => none
          | some (es, rest2) => some (.jobj es, rest2)
      else none

/-- Parse a nonempty `"key": value` sequence up to and including the
    closing brace. -/
def parseEntries : Nat → List Char → Option (JEntries × List Char)
  | 0, _ => none
  | fuel + 1, cs =>
    match cs with
    | '"' :: cs1 =>
      match parseStrBody cs1 with
      | none => none
      | some (kcs, cs2) =>
        match cs2 with
        | ':' :: ' ' :: cs3 =>
          match parseVal fuel cs3 with
          | none => none
          | some (v, cs4) =>
            match cs4 with
            | ',' :: ' ' :: cs5 =>
              match parseEntries fuel cs5 with
              | none => none
              | some (es, cs6) => some (.cons (String.mk kcs) v es, cs6)
            | '\x7d' :: cs5 => some (.cons (String.mk kcs) v .nil, cs5)
            | _ => none
        | _ => none
    | _ => none

end

/-- Parse a complete JSON document (`json.loads` on the grammar emitted by
    `jdumpChars`): the result, provided the whole input is consumed. -/
def jparse (s : String) : Option JValue :=
  match parseVal (s.data.length + 1) s.data with
  | some (v, []) => some v
  | _ => none

/-- Concrete sample type signatures used by witnesses and
    counterexamples. -/
def sigNativeCoin : String := "0x2::coin::Coin<0x2::sui::SUI>"

def sigGenericCoin : String := "0x2::coin::Coin<0x2::other::TOKEN>"

def sigNft : String := "0x2::devnet_nft::DevNetNFT"

def sigOtherSys : String := "0x2::foo::Bar"

def sigData : String := "0xabc::mining::Miner"

def sigShort : String := "a::b"

/-- A sample well-formed descriptor input mapping with the given type
    signature. -/
def mkDescInput (ts : String) : JEntries :=
  .cons "objectId" (.jstr "0xobj")
    (.cons "version" (.jnum 1)
      (.cons "digest" (.jstr "dg")
        (.cons "owner" (.jobj (.cons "AddressOwner" (.jstr "0xowner") .nil))
          (.cons "previousTransaction" (.jstr "tx")
            (.cons "type" (.jstr ts) .nil)))))

/-- The descriptor `from_object_descriptor` builds from `mkDescInput ts`
    when it classifies the signature as `tag`. -/
def mkDescOut (ts : String) (tag : SuiTypeTag) : ObjectInfo :=
  { identifier := .jstr "0xobj", version := .jnum 1, digest := .jstr "dg",
    owner := .jstr "0xowner", previous_transaction := .jstr "tx",
    type_signature := .jstr ts, type_raw := mkDescInput ts, variant := tag }

/-- The descriptor passed to `from_object_type` in the sample runs; its
    own `objectId` (`"0xobj"`) differs from the sample content block's
    `fields.id.id` (`"0xchild"`). -/
def sampleDescriptor : ObjectInfo := mkDescOut sigNativeCoin .nativeCoinTag

/-- Sample `fields` mappings for the different variants. -/
def idOnlyFields : JEntries :=
  .cons "id" (.jobj (.cons "id" (.jstr "0xchild") .nil)) .nil

def gasFields : JEntries :=
  .cons "id" (.jobj (.cons "id" (.jstr "0xchild") .nil))
    (.cons "balance" (.jnum 100) .nil)

def nftFields : JEntries :=
  .cons "id" (.jobj (.cons "id" (.jstr "0xchild") .nil))
    (.cons "description" (.jstr "an nft")
      (.cons "name" (.jstr "bob")
        (.cons "url" (.jstr "ipfs://x") .nil)))

def dataFields : JEntries :=
  .cons "id" (.jobj (.cons "id" (.jstr "0xchild") .nil))
    (.cons "power" (.jnum 7)
      (.cons "label" (.jstr "mine") .nil))

/-- A sample content block (`inblock`) for `from_object_type` with the
    given type signature and fields; its `data` mapping has no `version`,
    `digest`, `previousTransaction` or `storageRebate` entries of its
    own. -/
def mkBlock (ts : String) (fields : JEntries) : JEntries :=
  .cons "previousTransaction" (.jstr "ptx")
    (.cons "storageRebate" (.jnum 25)
      (.cons "data"
        (.jobj (.cons "type" (.jstr ts)
          (.cons "dataType" (.jstr "moveObject")
            (.cons "has_public_transfer" (.jbool true)
              (.cons "fields" (.jobj fields) .nil))))) .nil))

/-- The `data` mapping of `mkBlock ts fields` after `from_object_type`'s
    two assignments: the new keys are appended at the end. -/
def mkDataAfter (ts : String) (fields : JEntries) : JEntries :=
  .cons "type" (.jstr ts)
    (.cons "dataType" (.jstr "moveObject")
      (.cons "has_public_transfer" (.jbool true)
        (.cons "fields" (.jobj fields)
          (.cons "previousTransaction" (.jstr "ptx")
            (.cons "storageRebate" (.jnum 25) .nil)))))

/-- `mkBlock ts fields` as `from_object_type` leaves it: the nested `data`
    mapping now holds the two copied keys. -/
def mkBlockAfter (ts : String) (fields : JEntries) : JEntries :=
  .cons "previousTransaction" (.jstr "ptx")
    (.cons "storageRebate" (.jnum 25)
      (.cons "data" (.jobj (mkDataAfter ts fields)) .nil))

/-- The shared core of the object built from `mkBlock ts fields` with
    `sampleDescriptor` attached. -/
def mkCoreOut (ts : String) (fields : JEntries) : ObjectReadCore :=
  { identifier := .jstr "0xchild", type_signature := .jstr ts,
    data_type := .jstr "moveObject", has_public_transfer := .jbool true,
    descriptor := sampleDescriptor, previous_transaction := .jstr "ptx",
    storage_rebate := .jnum 25, type_raw := mkDataAfter ts fields }

/-- Reading a key of the nested `data` mapping of a content block, as the
    caller would (`inblock["data"][k]`). -/
def dataField (blk : JEntries) (k : String) : Except SuiErr JValue :=
  match dget blk "data" with
  | .error e => .error e
  | .ok dv => vget dv k

/-- The structured-data object built from `mkBlock sigData dataFields`. -/
def sampleDataObj : ObjectRead :=
  .suiDataType (mkCoreOut sigData dataFields)
    [("package", "0xabc"), ("module", "mining"), ("structure", "Miner")]
    (.cons "power" (.jnum 7) (.cons "label" (.jstr "mine") .nil)) []


/-- Structural induction for `JEntries` alone (the mutual recursor has two
    motives, which the `induction` tactic does not accept; none of the
    entry-level proofs recurse into values). -/
theorem JEntries.inductionOn (P : JEntries → Prop) (hnil : P .nil)
    (hcons : ∀ k v es, P es → P (.cons k v es)) : ∀ es, P es
  | .nil => hnil
  | .cons k v es => hcons k v es (JEntries.inductionOn P hnil hcons es)

theorem asStr_ok {x : JValue} {s : String} (h : asStr x = .ok s) : x = .jstr s := by
  cases x <;> simp [asStr] at h
  rw [h]

theorem asEntries_ok {x : JValue} {es : JEntries} (h : asEntries x = .ok es) : x = .jobj es := by
  cases x <;> simp [asEntries] at h
  rw [h]

theorem dget_dset_ne (es : JEntries) (k : String) (v : JValue) (k' : String)
    (h : k ≠ k') : dget (dset es k v) k' = dget es k' := by
  induction es using JEntries.inductionOn with
  | hnil => simp [dget, dset, h]
  | hcons k0 v0 rest ih =>
    by_cases hk : k0 = k
    · subst hk
      simp [dset, dget, h]
    · simp only [dset, if_neg hk, dget]
      by_cases hk' : k0 = k'
      · simp [hk']
      · simp [hk', ih]

theorem dget_dset_self (es : JEntries) (k : String) (v : JValue) :
    dget (dset es k v) k = .ok v := by
  induction es using JEntries.inductionOn with
  | hnil => simp [dget, dset]
  | hcons k0 v0 rest ih =>
    by_cases hk : k0 = k
    · subst hk
      simp [dset, dget]
    · simp [dset, hk, dget, ih]

theorem lidx_err_of_le {α : Type} (l : List α) (n : Nat) (h : l.length ≤ n) :
    lidx l n = .error .indexError := by
  induction l generalizing n with
  | nil => cases n <;> simp [lidx]
  | cons x xs ih =>
    cases n with
    | zero => simp at h
    | succ m =>
      simp only [List.length_cons, Nat.succ_le_succ_iff] at h
      simp [lidx, ih m h]

theorem eappend_nil (es : JEntries) : eappend es .nil = es := by
  induction es using JEntries.inductionOn with
  | hnil => rfl
  | hcons k v rest ih => simp [eappend, ih]

theorem eappend_keys (a b : JEntries) :
    (eappend a b).keys = a.keys ++ b.keys := by
  induction a using JEntries.inductionOn with
  | hnil => simp [eappend, JEntries.keys]
  | hcons k v rest ih => simp [eappend, JEntries.keys, ih]

theorem eappend_assoc (a b c : JEntries) :
    eappend (eappend a b) c = eappend a (eappend b c) := by
  induction a using JEntries.inductionOn with
  | hnil => simp [eappend]
  | hcons k v rest ih => simp [eappend, ih]

theorem dset_of_notkey (es : JEntries) (k : String) (v : JValue)
    (h : k ∉ es.keys) : dset es k v = eappend es (.cons k v .nil) := by
  induction es using JEntries.inductionOn with
  | hnil => simp [dset, eappend]
  | hcons k0 v0 rest ih =>
    simp only [JEntries.keys, List.mem_cons] at h
    push_neg at h
    have hne : ¬ (k0 = k) := fun hk => h.1 hk.symm
    simp only [dset, if_neg hne, eappend]
    rw [ih h.2]

theorem copyFieldsGo_spec (fs : JEntries) : ∀ acc : JEntries,
    fs.keys.Nodup → (∀ k ∈ fs.keys, k ∉ acc.keys) →
    copyFieldsGo acc fs = eappend acc (fieldsExceptId fs) := by
  induction fs using JEntries.inductionOn with
  | hnil => intro acc _ _; simp [copyFieldsGo, fieldsExceptId, eappend_nil]
  | hcons k v rest ih =>
    intro acc hnd hdisj
    simp only [JEntries.keys, List.nodup_cons] at hnd
    have hk_acc : k ∉ acc.keys := hdisj k (by simp [JEntries.keys])
    by_cases hid : k = "id"
    · simp only [copyFieldsGo, if_pos hid, fieldsExceptId, if_pos hid]
      exact ih acc hnd.2 (fun k' hk' => hdisj k' (by simp [JEntries.keys, hk']))
    · simp only [copyFieldsGo, if_neg hid, fieldsExceptId]
      rw [dset_of_notkey acc k v hk_acc]
      rw [ih (eappend acc (.cons k v .nil)) hnd.2]
      · rw [eappend_assoc]
        simp [eappend]
      · intro k' hk'
        rw [eappend_keys]
        simp only [JEntries.keys, List.mem_append, List.mem_cons]
        push_neg
        refine ⟨fun hacc => hdisj k' (by simp [JEntries.keys, hk']) hacc, ?_, by simp⟩
        intro heq
        exact hnd.1 (heq ▸ hk')

theorem copyFields_eq (fs : JEntries) (h : fs.keys.Nodup) :
    copyFields fs = fieldsExceptId fs := by
  have := copyFieldsGo_spec fs .nil h (by simp [JEntries.keys])
  simpa [copyFields, eappend] using this

theorem mkObjectInfo_inv {indata : JEntries} {tag : SuiTypeTag} {d : ObjectInfo}
    (h : mkObjectInfo indata tag = .ok d) :
    d.variant = tag ∧ d.type_raw = indata := by
  unfold mkObjectInfo at h
  cases h1 : dget indata "objectId" with
  | error e => simp [h1] at h
  | ok oid =>
  simp only [h1] at h
  cases h2 : dget indata "version" with
  | error e => simp [h2] at h
  | ok ver =>
  simp only [h2] at h
  cases h3 : dget indata "digest" with
  | error e => simp [h3] at h
  | ok dig =>
  simp only [h3] at h
  cases h4 : dget indata "owner" with
  | error e => simp [h4] at h
  | ok ow =>
  simp only [h4] at h
  cases h5 : vget ow "AddressOwner" with
  | error e => simp [h5] at h
  | ok addr =>
  simp only [h5] at h
  cases h6 : dget indata "previousTransaction" with
  | error e => simp [h6] at h
  | ok ptx =>
  simp only [h6] at h
  cases h7 : dget indata "type" with
  | error e => simp [h7] at h
  | ok tsv =>
  simp only [h7] at h
  cases h
  exact ⟨rfl, rfl⟩

theorem cls_generic3 {ts m r : String} (hsp : pySplit2 ts = ["0x2", m, r])
    (hm : m ≠ "coin") (hmr : m = "devnet_nft" → r ≠ "DevNetNFT") :
    classifySignature ts = .ok .generic := by
  by_cases hdn : m = "devnet_nft"
  · subst hdn
    simp [classifySignature, hsp, lidx, hm, hmr rfl]
  · simp [classifySignature, hsp, lidx, hm, hdn]

theorem cls_data3 {ts p m r : String} (hsp : pySplit2 ts = [p, m, r])
    (hp : p ≠ "0x2") : classifySignature ts = .ok .dataTag := by
  simp [classifySignature, hsp, lidx, hp]

theorem cls_gen1 {ts p : String} (hsp : pySplit2 ts = [p])
    (hp : p ≠ "0x2") : classifySignature ts = .ok .generic := by
  simp [classifySignature, hsp, lidx, hp]

theorem cls_gen2 {ts p m : String} (hsp : pySplit2 ts = [p, m])
    (hp : p ≠ "0x2") : classifySignature ts = .ok .generic := by
  simp [classifySignature, hsp, lidx, hp]

theorem cls_idx1 {ts : String} (hsp : pySplit2 ts = ["0x2"]) :
    classifySignature ts = .error .indexError := by
  simp [classifySignature, hsp, lidx]

theorem cls_idx2coin {ts : String} (hsp : pySplit2 ts = ["0x2", "coin"]) :
    classifySignature ts = .error .indexError := by
  simp [classifySignature, hsp, lidx]

theorem cls_idx2devnet {ts : String} (hsp : pySplit2 ts = ["0x2", "devnet_nft"]) :
    classifySignature ts = .error .indexError := by
  simp [classifySignature, hsp, lidx]

theorem cls_gen2_0x2 {ts m : String} (hsp : pySplit2 ts = ["0x2", m])
    (hm1 : m ≠ "coin") (hm2 : m ≠ "devnet_nft") :
    classifySignature ts = .ok .generic := by
  simp [classifySignature, hsp, lidx, hm1, hm2]

theorem cls_idx_unwrap {ts r : String} (hsp : pySplit2 ts = ["0x2", "coin", r])
    (hlen : (pySplitAll (pySlice5m1 r)).length ≤ 2) :
    classifySignature ts = .error .indexError := by
  simp [classifySignature, hsp, lidx, lidx_err_of_le _ 2 hlen]

theorem fod_eval {indata : JEntries} {ts : String} {tag : SuiTypeTag}
    (hty : dget indata "type" = .ok (.jstr ts))
    (hcl : classifySignature ts = .ok tag) :
    from_object_descriptor indata = mkObjectInfo indata tag := by
  unfold from_object_descriptor
  simp only [hty, asStr, hcl]

theorem fod_err_type {indata : JEntries} {e : SuiErr}
    (hty : dget indata "type" = .error e) :
    from_object_descriptor indata = .error e := by
  unfold from_object_descriptor
  simp only [hty]

theorem fod_err_cls {indata : JEntries} {ts : String} {e : SuiErr}
    (hty : dget indata "type" = .ok (.jstr ts))
    (hcl : classifySignature ts = .error e) :
    from_object_descriptor indata = .error e := by
  unfold from_object_descriptor
  simp only [hty, asStr, hcl]

theorem mkObjectInfo_err_objectId {indata : JEntries} {tag : SuiTypeTag} {e : SuiErr}
    (hoid : dget indata "objectId" = .error e) :
    mkObjectInfo indata tag = .error e := by
  unfold mkObjectInfo
  simp only [hoid]

theorem fod_inv {indata : JEntries} {d : ObjectInfo}
    (h : from_object_descriptor indata = .ok d) :
    ∃ ts tag, dget indata "type" = .ok (.jstr ts) ∧
      classifySignature ts = .ok tag ∧ mkObjectInfo indata tag = .ok d := by
  unfold from_object_descriptor at h
  cases h1 : dget indata "type" with
  | error e => simp [h1] at h
  | ok tv =>
  simp only [h1] at h
  cases h2 : asStr tv with
  | error e => simp [h2] at h
  | ok ts =>
  simp only [h2] at h
  have htv := asStr_ok h2
  subst htv
  cases h3 : classifySignature ts with
  | error e => simp [h3] at h
  | ok tag =>
  simp only [h3] at h
  exact ⟨ts, tag, rfl, h3, h⟩

theorem mkCore_inv {indata : JEntries} {desc : ObjectInfo} {core : ObjectReadCore}
    (h : mkObjectReadCore indata desc = .ok core) :
    core.descriptor = desc ∧ core.type_raw = indata ∧
      ∃ fv iv, dget indata "fields" = .ok fv ∧ vget fv "id" = .ok iv ∧
        vget iv "id" = .ok core.identifier := by
  unfold mkObjectReadCore at h
  cases h1 : dget indata "fields" with
  | error e => simp [h1] at h
  | ok fv =>
  simp only [h1] at h
  cases h2 : vget fv "id" with
  | error e => simp [h2] at h
  | ok iv =>
  simp only [h2] at h
  cases h3 : vget iv "id" with
  | error e => simp [h3] at h
  | ok idv =>
  simp only [h3] at h
  cases h4 : dget indata "type" with
  | error e => simp [h4] at h
  | ok tsv =>
  simp only [h4] at h
  cases h5 : dget indata "dataType" with
  | error e => simp [h5] at h
  | ok dt =>
  simp only [h5] at h
  cases h6 : dget indata "has_public_transfer" with
  | error e => simp [h6] at h
  | ok hpt =>
  simp only [h6] at h
  cases h7 : dget indata "previousTransaction" with
  | error e => simp [h7] at h
  | ok ptx =>
  simp only [h7] at h
  cases h8 : dget indata "storageRebate" with
  | error e => simp [h8] at h
  | ok sr =>
  simp only [h8] at h
  cases h
  exact ⟨rfl, rfl, fv, iv, rfl, h2, h3⟩

theorem ofd_inv {desc : ObjectInfo} {indata : JEntries} {o : ObjectRead}
    (h : objectFromData desc indata = .ok o) :
    ∃ ts tag core, dget indata "type" = .ok (.jstr ts) ∧
      classifySignature ts = .ok tag ∧ mkObjectReadCore indata desc = .ok core ∧
      o.core = core ∧ o.tagOf = tag := by
  unfold objectFromData at h
  cases h1 : dget indata "type" with
  | error e => simp [h1] at h
  | ok tv =>
  simp only [h1] at h
  cases h2 : asStr tv with
  | error e => simp [h2] at h
  | ok ts =>
  simp only [h2] at h
  have htv := asStr_ok h2
  subst htv
  cases h3 : classifySignature ts with
  | error e => simp [h3] at h
  | ok tag =>
  simp only [h3] at h
  cases h4 : mkObjectReadCore indata desc with
  | error e => simp [h4] at h
  | ok core =>
  simp only [h4] at h
  cases tag with
  | generic =>
    cases h
    exact ⟨ts, .generic, core, rfl, h3, rfl, rfl, rfl⟩
  | dataTag =>
    cases h5 : dget indata "fields" with
    | error e => simp [h5] at h
    | ok fv =>
    simp only [h5] at h
    cases h6 : asEntries fv with
    | error e => simp [h6] at h
    | ok fents =>
    simp only [h6] at h
    cases h
    exact ⟨ts, .dataTag, core, rfl, h3, rfl, rfl, rfl⟩
  | nftTag =>
    cases h5 : dget indata "fields" with
    | error e => simp [h5] at h
    | ok fv =>
    simp only [h5] at h
    cases h6 : vget fv "description" with
    | error e => simp [h6] at h
    | ok dsc =>
    simp only [h6] at h
    cases h7 : vget fv "name" with
    | error e => simp [h7] at h
    | ok nm =>
    simp only [h7] at h
    cases h8 : vget fv "url" with
    | error e => simp [h8] at h
    | ok url =>
    simp only [h8] at h
    cases h
    exact ⟨ts, .nftTag, core, rfl, h3, rfl, rfl, rfl⟩
  | coinTag =>
    cases h
    exact ⟨ts, .coinTag, core, rfl, h3, rfl, rfl, rfl⟩
  | nativeCoinTag =>
    cases h5 : dget indata "fields" with
    | error e => simp [h5] at h
    | ok fv =>
    simp only [h5] at h
    cases h6 : vget fv "balance" with
    | error e => simp [h6] at h
    | ok bal =>
    simp only [h6] at h
    cases h
    exact ⟨ts, .nativeCoinTag, core, rfl, h3, rfl, rfl, rfl⟩

theorem ofd_data_inv {desc : ObjectInfo} {indata : JEntries} {o : ObjectRead}
    (h : objectFromData desc indata = .ok o) (hd : o.tagOf = .dataTag) :
    ∃ ts core fents, dget indata "type" = .ok (.jstr ts) ∧
      classifySignature ts = .ok .dataTag ∧ mkObjectReadCore indata desc = .ok core ∧
      dget indata "fields" = .ok (.jobj fents) ∧
      o = .suiDataType core (List.zip pmKeys (pySplit2 ts)) (copyFields fents) [] := by
  unfold objectFromData at h
  cases h1 : dget indata "type" with
  | error e => simp [h1] at h
  | ok tv =>
  simp only [h1] at h
  cases h2 : asStr tv with
  | error e => simp [h2] at h
  | ok ts =>
  simp only [h2] at h
  have htv := asStr_ok h2
  subst htv
  cases h3 : classifySignature ts with
  | error e => simp [h3] at h
  | ok tag =>
  simp only [h3] at h
  cases h4 : mkObjectReadCore indata desc with
  | error e => simp [h4] at h
  | ok core =>
  simp only [h4] at h
  cases tag with
  | generic =>
    cases h
    simp [ObjectRead.tagOf] at hd
  | dataTag =>
    cases h5 : dget indata "fields" with
    | error e => simp [h5] at h
    | ok fv =>
    simp only [h5] at h
    cases h6 : asEntries fv with
    | error e => simp [h6] at h
    | ok fents =>
    simp only [h6] at h
    have hfv := asEntries_ok h6
    subst hfv
    cases h
    exact ⟨ts, core, fents, rfl, h3, rfl, rfl, rfl⟩
  | nftTag =>
    cases h5 : dget indata "fields" with
    | error e => simp [h5] at h
    | ok fv =>
    simp only [h5] at h
    cases h6 : vget fv "description" with
    | error e => simp [h6] at h
    | ok dsc =>
    simp only [h6] at h
    cases h7 : vget fv "name" with
    | error e => simp [h7] at h
    | ok nm =>
    simp only [h7] at h
    cases h8 : vget fv "url" with
    | error e => simp [h8] at h
    | ok url =>
    simp only [h8] at h
    cases h
    simp [ObjectRead.tagOf] at hd
  | coinTag =>
    cases h
    simp [ObjectRead.tagOf] at hd
  | nativeCoinTag =>
    cases h5 : dget indata "fields" with
    | error e => simp [h5] at h
    | ok fv =>
    simp only [h5] at h
    cases h6 : vget fv "balance" with
    | error e => simp [h6] at h
    | ok bal =>
    simp only [h6] at h
    cases h
    simp [ObjectRead.tagOf] at hd

theorem fot_inv {desc : ObjectInfo} {inblock : JEntries} {o : ObjectRead} {blk' : JEntries}
    (h : from_object_type desc inblock = (.ok o, blk')) :
    ∃ d0 ptx sr, dget inblock "data" = .ok (.jobj d0) ∧
      dget inblock "previousTransaction" = .ok ptx ∧
      dget inblock "storageRebate" = .ok sr ∧
      objectFromData desc (dset (dset d0 "previousTransaction" ptx) "storageRebate" sr) = .ok o ∧
      blk' = dset inblock "data" (.jobj (dset (dset d0 "previousTransaction" ptx) "storageRebate" sr)) := by
  unfold from_object_type at h
  cases h1 : dget inblock "data" with
  | error e => simp only [h1] at h; simp at h
  | ok dv =>
  simp only [h1] at h
  cases h2 : asEntries dv with
  | error e => simp only [h2] at h; simp at h
  | ok d0 =>
  simp only [h2] at h
  have hdv := asEntries_ok h2
  subst hdv
  cases h3 : dget inblock "previousTransaction" with
  | error e => simp only [h3] at h; simp at h
  | ok ptx =>
  simp only [h3] at h
  cases h4 : dget inblock "storageRebate" with
  | error e => simp only [h4] at h; simp at h
  | ok sr =>
  simp only [h4] at h
  rw [Prod.mk.injEq] at h
  exact ⟨d0, ptx, sr, rfl, rfl, rfl, h.1, h.2.symm⟩

theorem fot_eval {desc : ObjectInfo} {inblock d0 : JEntries} {ptx sr : JValue}
    (hd : dget inblock "data" = .ok (.jobj d0))
    (hp : dget inblock "previousTransaction" = .ok ptx)
    (hs : dget inblock "storageRebate" = .ok sr) :
    from_object_type desc inblock =
      (objectFromData desc (dset (dset d0 "previousTransaction" ptx) "storageRebate" sr),
       dset inblock "data" (.jobj (dset (dset d0 "previousTransaction" ptx) "storageRebate" sr))) := by
  unfold from_object_type
  simp only [hd, asEntries, hp, hs]

theorem dget_mut (d0 : JEntries) (ptx sr : JValue) (k : String)
    (h1 : k ≠ "previousTransaction") (h2 : k ≠ "storageRebate") :
    dget (dset (dset d0 "previousTransaction" ptx) "storageRebate" sr) k = dget d0 k := by
  rw [dget_dset_ne _ _ _ _ (fun he => h2 he.symm), dget_dset_ne _ _ _ _ (fun he => h1 he.symm)]

theorem add_child_children {o : ObjectRead} (c : ObjectRead)
    (h : o.isDataType = true) : (add_child o c).children = o.children ++ [c] := by
  cases o <;> simp_all [ObjectRead.isDataType, add_child, ObjectRead.children]

theorem add_child_isData {o : ObjectRead} (c : ObjectRead)
    (h : o.isDataType = true) : (add_child o c).isDataType = true := by
  cases o <;> simp_all [ObjectRead.isDataType, add_child]

theorem foldl_add_child (xs : List ObjectRead) : ∀ o : ObjectRead,
    o.isDataType = true → (xs.foldl add_child o).children = o.children ++ xs := by
  induction xs with
  | nil => intro o _; simp
  | cons c rest ih =>
    intro o ho
    rw [List.foldl_cons, ih (add_child o c) (add_child_isData c ho),
        add_child_children c ho]
    simp

theorem natCharsAux_acc (fuel : Nat) : ∀ (n : Nat) (acc : List Char),
    natCharsAux fuel n acc = natCharsAux fuel n [] ++ acc := by
  induction fuel with
  | zero => intro n acc; simp [natCharsAux]
  | succ f ih =>
    intro n acc
    simp only [natCharsAux]
    split
    · simp
    · rw [ih (n / 10) (Char.ofNat (48 + n % 10) :: acc),
          ih (n / 10) [Char.ofNat (48 + n % 10)]]
      simp

theorem natCharsAux_extra : ∀ (n f1 f2 : Nat) (acc : List Char), n < f1 → n < f2 →
    natCharsAux f1 n acc = natCharsAux f2 n acc := by
  intro n
  induction n using Nat.strongRecOn with
  | ind n ih =>
    intro f1 f2 acc h1 h2
    cases f1 with
    | zero => omega
    | succ g1 =>
      cases f2 with
      | zero => omega
      | succ g2 =>
        simp only [natCharsAux]
        split
        · rfl
        · rename_i hlt
          exact ih (n / 10) (by omega) g1 g2 _ (by omega) (by omega)

theorem digit_char_isDig {m : Nat} (h : m < 10) :
    isDig (Char.ofNat (48 + m)) = true := by
  interval_cases m <;> decide

theorem digit_char_val {m : Nat} (h : m < 10) :
    (Char.ofNat (48 + m)).toNat - 48 = m := by
  interval_cases m <;> decide

theorem natCharsAux_digits (fuel : Nat) : ∀ (n : Nat) (acc : List Char),
    (∀ c ∈ acc, isDig c = true) → ∀ c ∈ natCharsAux fuel n acc, isDig c = true := by
  induction fuel with
  | zero => intro n acc hacc; simpa [natCharsAux] using hacc
  | succ f ih =>
    intro n acc hacc
    simp only [natCharsAux]
    split
    · intro c hc
      rcases List.mem_cons.mp hc with rfl | hc
      · exact digit_char_isDig (Nat.mod_lt n (by omega))
      · exact hacc c hc
    · refine ih (n / 10) _ ?_
      intro c hc
      rcases List.mem_cons.mp hc with rfl | hc
      · exact digit_char_isDig (Nat.mod_lt n (by omega))
      · exact hacc c hc

theorem natChars_digits (n : Nat) : ∀ c ∈ natChars n, isDig c = true :=
  natCharsAux_digits (n + 1) n [] (by simp)

theorem natChars_ne_nil (n : Nat) : natChars n ≠ [] := by
  unfold natChars
  simp only [natCharsAux]
  split
  · simp
  · rw [natCharsAux_acc]
    simp

theorem digitsToNat_append_one (xs : List Char) (c : Char) :
    digitsToNat (xs ++ [c]) = digitsToNat xs * 10 + (c.toNat - 48) := by
  simp [digitsToNat, List.foldl_append]

theorem digitsToNat_natChars : ∀ n : Nat, digitsToNat (natChars n) = n := by
  intro n
  induction n using Nat.strongRecOn with
  | ind n ih =>
    unfold natChars
    simp only [natCharsAux]
    split
    · rename_i hlt
      simp only [digitsToNat, List.foldl]
      rw [Nat.mod_eq_of_lt hlt, digit_char_val hlt]
      omega
    · rename_i hge
      rw [natCharsAux_acc,
          natCharsAux_extra (n / 10) n (n / 10 + 1) [] (by omega) (by omega)]
      have : natCharsAux (n / 10 + 1) (n / 10) [] = natChars (n / 10) := rfl
      rw [this, digitsToNat_append_one, ih (n / 10) (by omega),
          digit_char_val (Nat.mod_lt n (by omega))]
      omega

theorem cleanChar_props {c : Char} (h : cleanChar c = true) :
    32 ≤ c.toNat ∧ c.toNat ≤ 126 ∧ c.toNat ≠ 34 ∧ c.toNat ≠ 92 := by
  simp only [cleanChar, Bool.and_eq_true, decide_eq_true_eq, bne_iff_ne, ne_eq] at h
  exact ⟨h.1.1.1, h.1.1.2, h.1.2, h.2⟩

theorem cleanChar_ne_quote {c : Char} (h : cleanChar c = true) : ¬(c = '"') := by
  intro hc
  exact (cleanChar_props h).2.2.1 (congrArg Char.toNat hc)

theorem isDig_bounds {c : Char} (h : isDig c = true) :
    48 ≤ c.toNat ∧ c.toNat ≤ 57 := by
  simp only [isDig, Bool.and_eq_true, decide_eq_true_eq] at h
  exact h

theorem isDig_ne_quote {c : Char} (h : isDig c = true) : ¬(c = '"') := by
  intro hc
  have := isDig_bounds h
  rw [hc] at this
  simp at this

theorem parseStrBody_spec : ∀ (body rest : List Char),
    (∀ c ∈ body, cleanChar c = true) →
    parseStrBody (body ++ '"' :: rest) = some (body, rest) := by
  intro body
  induction body with
  | nil => intro rest _; simp [parseStrBody]
  | cons c bs ih =>
    intro rest hcl
    have hc := cleanChar_ne_quote (hcl c (by simp))
    simp only [List.cons_append, parseStrBody, if_neg hc, List.append_eq]
    rw [ih rest (fun c' hc' => hcl c' (by simp [hc']))]

theorem parseDigits_spec : ∀ (ds rest : List Char),
    (∀ c ∈ ds, isDig c = true) → noDigitHead rest = true →
    parseDigits (ds ++ rest) = (ds, rest) := by
  intro ds
  induction ds with
  | nil =>
    intro rest _ hnd
    cases rest with
    | nil => simp [parseDigits]
    | cons c cs =>
      simp only [noDigitHead, Bool.not_eq_true'] at hnd
      simp [parseDigits, hnd]
  | cons c ds ih =>
    intro rest hds hnd
    have hc : isDig c = true := hds c (by simp)
    simp only [List.cons_append, parseDigits, if_pos hc, List.append_eq]
    rw [ih rest (fun c' hc' => hds c' (by simp [hc'])) hnd]

theorem noDigitHead_entsTail (es : JEntries) (rest : List Char) :
    noDigitHead (entsTail es ++ '\x7d' :: rest) = true := by
  cases es with
  | nil => simp [entsTail, noDigitHead, isDig]
  | cons k v es2 => simp [entsTail, noDigitHead, isDig]

theorem stringMk_data (s : String) : String.mk s.data = s := rfl


theorem parse_dump : ∀ fuel : Nat,
    (∀ (v : JValue) (rest : List Char), cleanV v = true → noDigitHead rest = true →
        (jdumpChars v ++ rest).length < fuel →
        parseVal fuel (jdumpChars v ++ rest) = some (v, rest)) ∧
    (∀ (k : String) (v : JValue) (es : JEntries) (rest : List Char),
        cleanS k = true → cleanV v = true → cleanE es = true →
        ('"' :: (k.data ++ '"' :: ':' :: ' ' :: (jdumpChars v ++ (entsTail es ++ '\x7d' :: rest)))).length < fuel →
        parseEntries fuel ('"' :: (k.data ++ '"' :: ':' :: ' ' :: (jdumpChars v ++ (entsTail es ++ '\x7d' :: rest)))) =
          some (.cons k v es, rest)) := by
  intro fuel
  induction fuel with
  | zero =>
    exact ⟨fun v rest _ _ h => absurd h (by omega),
           fun k v es rest _ _ _ h => absurd h (by omega)⟩
  | succ f ih =>
    obtain ⟨ihV, ihE⟩ := ih
    constructor
    · intro v rest hcv hnd hlen
      cases v with
      | jstr s =>
        simp only [cleanV, cleanS, List.all_eq_true] at hcv
        have hps := parseStrBody_spec s.data rest hcv
        simp [jdumpChars, parseVal, hps, stringMk_data]
      | jnum n =>
        have hne := natChars_ne_nil n
        have hdig := natChars_digits n
        have hpd : parseDigits (natChars n ++ rest) = (natChars n, rest) :=
          parseDigits_spec _ _ hdig hnd
        cases hnc : natChars n with
        | nil => exact absurd hnc hne
        | cons c cs =>
          have hcdig : isDig c = true := hdig c (by rw [hnc]; simp)
          have hcq : ¬(c = '"') := isDig_ne_quote hcdig
          rw [hnc] at hpd
          simp only [List.cons_append] at hpd
          simp [jdumpChars, hnc, parseVal, hcq, hcdig]
          rw [hpd]
          exact ⟨hnc ▸ digitsToNat_natChars n, rfl⟩
      | jbool b =>
        cases b <;> simp [jdumpChars, parseVal, isDig]
      | jobj es =>
        cases es with
        | nil => simp [jdumpChars, parseVal, isDig]
        | cons k v es2 =>
          simp only [cleanV, cleanE, Bool.and_eq_true] at hcv
          obtain ⟨⟨hk, hv⟩, hes⟩ := hcv
          have hlen2 : ('"' :: (k.data ++ '"' :: ':' :: ' ' :: (jdumpChars v ++ (entsTail es2 ++ '\x7d' :: rest)))).length < f := by
            simp only [jdumpChars, List.length_cons, List.length_append] at hlen ⊢
            omega
          have hE := ihE k v es2 rest hk hv hes hlen2
          simp [jdumpChars, parseVal, isDig, List.append_assoc, hE]
    · intro k v es rest hk hv hes hlen
      simp only [cleanS, List.all_eq_true] at hk
      have hps := parseStrBody_spec k.data (':' :: ' ' :: (jdumpChars v ++ (entsTail es ++ '\x7d' :: rest))) hk
      have hndv : noDigitHead (entsTail es ++ '\x7d' :: rest) = true := noDigitHead_entsTail es rest
      have hlenv : (jdumpChars v ++ (entsTail es ++ '\x7d' :: rest)).length < f := by
        simp only [List.length_cons, List.length_append] at hlen ⊢
        omega
      have hV := ihV v (entsTail es ++ '\x7d' :: rest) hv hndv hlenv
      cases es with
      | nil =>
        simp only [entsTail, List.nil_append] at hV hps ⊢
        simp [parseEntries, hps, hV, stringMk_data]
      | cons k2 v2 es2 =>
        simp only [cleanE, Bool.and_eq_true] at hes
        obtain ⟨⟨hk2, hv2⟩, hes2⟩ := hes
        have hlen3 : ('"' :: (k2.data ++ '"' :: ':' :: ' ' :: (jdumpChars v2 ++ (entsTail es2 ++ '\x7d' :: rest)))).length < f := by
          simp only [entsTail, List.length_cons, List.length_append] at hlen ⊢
          omega
        have hE2 := ihE k2 v2 es2 rest hk2 hv2 hes2 hlen3
        simp only [entsTail, List.cons_append, List.append_assoc] at hV hps ⊢
        simp [parseEntries, hps, hV, stringMk_data, List.append_assoc, hE2]

theorem jparse_jdumps {v : JValue} (h : cleanV v = true) :
    jparse (jdumps v) = some v := by
  have hmain := (parse_dump ((jdumpChars v).length + 1)).1 v [] h (by simp [noDigitHead])
    (by simp)
  simp only [List.append_nil] at hmain
  unfold jparse jdumps
  rw [show (String.mk (jdumpChars v)).data = jdumpChars v from rfl, hmain]

theorem fod_variant_of_cls {indata : JEntries} {ts : String} {tag : SuiTypeTag} {d : ObjectInfo}
    (hty : dget indata "type" = .ok (.jstr ts))
    (hcl : classifySignature ts = .ok tag)
    (h : from_object_descriptor indata = .ok d) : d.variant = tag := by
  rw [fod_eval hty hcl] at h
  exact (mkObjectInfo_inv h).1

theorem fot_tag_of_cls {desc : ObjectInfo} {inblock : JEntries} {o : ObjectRead}
    {blk' d0 : JEntries} {ts : String} {tag : SuiTypeTag}
    (h : from_object_type desc inblock = (.ok o, blk'))
    (hd : dget inblock "data" = .ok (.jobj d0))
    (hty : dget d0 "type" = .ok (.jstr ts))
    (hcl : classifySignature ts = .ok tag) : o.tagOf = tag := by
  obtain ⟨d0', ptx, sr, hd', hp, hs, hofd, hblk⟩ := fot_inv h
  rw [hd] at hd'
  injection hd' with h1
  injection h1 with h2
  subst h2
  obtain ⟨ts', tag', core, hty2, hcl2, hmk, hco, htag⟩ := ofd_inv hofd
  rw [dget_mut d0 ptx sr "type" (by decide) (by decide), hty] at hty2
  injection hty2 with h3
  injection h3 with h4
  subst h4
  rw [hcl] at hcl2
  injection hcl2 with h5
  subst h5
  exact htag

/-- C1: for an input mapping whose type signature is
    `0x2::coin::Coin<0x2::sui::SUI>` both classifiers return the
    native-coin variant (`SuiNativeCoinDescriptor` / `SuiGasType`);
    for `0x2::coin::Coin<0x2::other::TOKEN>` the generic-coin variant;
    for `0x2::devnet_nft::DevNetNFT` the NFT variant; and for any other
    three-part `0x2::<module>::...` signature the generic fallback
    (`ObjectInfo` / `ObjectRead`). -/
theorem C1_classification_outcomes :
    (∀ (indata : JEntries) (d : ObjectInfo),
        dget indata "type" = .ok (.jstr "0x2::coin::Coin<0x2::sui::SUI>") →
        from_object_descriptor indata = .ok d → d.variant = .nativeCoinTag) ∧
    (∀ (indata : JEntries) (d : ObjectInfo),
        dget indata "type" = .ok (.jstr "0x2::coin::Coin<0x2::other::TOKEN>") →
        from_object_descriptor indata = .ok d → d.variant = .coinTag) ∧
    (∀ (indata : JEntries) (d : ObjectInfo),
        dget indata "type" = .ok (.jstr "0x2::devnet_nft::DevNetNFT") →
        from_object_descriptor indata = .ok d → d.variant = .nftTag) ∧
    (∀ (indata : JEntries) (d : ObjectInfo) (ts m r : String),
        dget indata "type" = .ok (.jstr ts) → pySplit2 ts = ["0x2", m, r] →
        m ≠ "coin" → (m = "devnet_nft" → r ≠ "DevNetNFT") →
        from_object_descriptor indata = .ok d → d.variant = .generic) ∧
    (∀ (desc : ObjectInfo) (inblock : JEntries) (o : ObjectRead) (blk' d0 : JEntries),
        from_object_type desc inblock = (.ok o, blk') →
        dget inblock "data" = .ok (.jobj d0) →
        dget d0 "type" = .ok (.jstr "0x2::coin::Coin<0x2::sui::SUI>") →
        o.tagOf = .nativeCoinTag) ∧
    (∀ (desc : ObjectInfo) (inblock : JEntries) (o : ObjectRead) (blk' d0 : JEntries),
        from_object_type desc inblock = (.ok o, blk') →
        dget inblock "data" = .ok (.jobj d0) →
        dget d0 "type" = .ok (.jstr "0x2::coin::Coin<0x2::other::TOKEN>") →
        o.tagOf = .coinTag) ∧
    (∀ (desc : ObjectInfo) (inblock : JEntries) (o : ObjectRead) (blk' d0 : JEntries),
        from_object_type desc inblock = (.ok o, blk') →
        dget inblock "data" = .ok (.jobj d0) →
        dget d0 "type" = .ok (.jstr "0x2::devnet_nft::DevNetNFT") →
        o.tagOf = .nftTag) ∧
    (∀ (desc : ObjectInfo) (inblock : JEntries) (o : ObjectRead) (blk' d0 : JEntries)
        (ts m r : String),
        from_object_type desc inblock = (.ok o, blk') →
        dget inblock "data" = .ok (.jobj d0) →
        dget d0 "type" = .ok (.jstr ts) → pySplit2 ts = ["0x2", m, r] →
        m ≠ "coin" → (m = "devnet_nft" → r ≠ "DevNetNFT") →
        o.tagOf = .generic) := by
  refine ⟨?_, ?_, ?_, ?_, ?_, ?_, ?_, ?_⟩
  · intro indata d hty h
    exact fod_variant_of_cls hty rfl h
  · intro indata d hty h
    exact fod_variant_of_cls hty rfl h
  · intro indata d hty h
    exact fod_variant_of_cls hty rfl h
  · intro indata d ts m r hty hsp hm hmr h
    exact fod_variant_of_cls hty (cls_generic3 hsp hm hmr) h
  · intro desc inblock o blk' d0 h hd hty
    exact fot_tag_of_cls h hd hty rfl
  · intro desc inblock o blk' d0 h hd hty
    exact fot_tag_of_cls h hd hty rfl
  · intro desc inblock o blk' d0 h hd hty
    exact fot_tag_of_cls h hd hty rfl
  · intro desc inblock o blk' d0 ts m r h hd hty hsp hm hmr
    exact fot_tag_of_cls h hd hty (cls_generic3 hsp hm hmr)

/-- Witness for C1: concrete runs of both classifiers on the four kinds of
    signature, with every hypothesis discharged by evaluation. -/
theorem C1_classification_outcomes_witness :
    (from_object_descriptor (mkDescInput sigNativeCoin) = .ok (mkDescOut sigNativeCoin .nativeCoinTag)
      ∧ (mkDescOut sigNativeCoin .nativeCoinTag).variant = .nativeCoinTag) ∧
    (from_object_descriptor (mkDescInput sigGenericCoin) = .ok (mkDescOut sigGenericCoin .coinTag)
      ∧ (mkDescOut sigGenericCoin .coinTag).variant = .coinTag) ∧
    (from_object_descriptor (mkDescInput sigNft) = .ok (mkDescOut sigNft .nftTag)
      ∧ (mkDescOut sigNft .nftTag).variant = .nftTag) ∧
    (from_object_descriptor (mkDescInput sigOtherSys) = .ok (mkDescOut sigOtherSys .generic)
      ∧ (mkDescOut sigOtherSys .generic).variant = .generic) ∧
    ((from_object_type sampleDescriptor (mkBlock sigNativeCoin gasFields)).1 =
        .ok (.suiGasType (mkCoreOut sigNativeCoin gasFields) (.jnum 100))
      ∧ (ObjectRead.suiGasType (mkCoreOut sigNativeCoin gasFields) (.jnum 100)).tagOf = .nativeCoinTag) ∧
    ((from_object_type sampleDescriptor (mkBlock sigGenericCoin gasFields)).1 =
        .ok (.suiCoinType (mkCoreOut sigGenericCoin gasFields))
      ∧ (ObjectRead.suiCoinType (mkCoreOut sigGenericCoin gasFields)).tagOf = .coinTag) ∧
    ((from_object_type sampleDescriptor (mkBlock sigNft nftFields)).1 =
        .ok (.suiNftType (mkCoreOut sigNft nftFields) (.jstr "an nft") (.jstr "bob") (.jstr "ipfs://x"))
      ∧ (ObjectRead.suiNftType (mkCoreOut sigNft nftFields) (.jstr "an nft") (.jstr "bob") (.jstr "ipfs://x")).tagOf = .nftTag) ∧
    ((from_object_type sampleDescriptor (mkBlock sigOtherSys idOnlyFields)).1 =
        .ok (.objectRead (mkCoreOut sigOtherSys idOnlyFields))
      ∧ (ObjectRead.objectRead (mkCoreOut sigOtherSys idOnlyFields)).tagOf = .generic) :=
  ⟨⟨rfl, C1_classification_outcomes.1 (mkDescInput sigNativeCoin) _ rfl rfl⟩,
   ⟨rfl, C1_classification_outcomes.2.1 (mkDescInput sigGenericCoin) _ rfl rfl⟩,
   ⟨rfl, C1_classification_outcomes.2.2.1 (mkDescInput sigNft) _ rfl rfl⟩,
   ⟨rfl, C1_classification_outcomes.2.2.2.1 (mkDescInput sigOtherSys) _ sigOtherSys "foo" "Bar"
      rfl rfl (by decide) (by decide) rfl⟩,
   ⟨rfl, C1_classification_outcomes.2.2.2.2.1 sampleDescriptor (mkBlock sigNativeCoin gasFields) _
      (mkBlockAfter sigNativeCoin gasFields) _ rfl rfl rfl⟩,
   ⟨rfl, C1_classification_outcomes.2.2.2.2.2.1 sampleDescriptor (mkBlock sigGenericCoin gasFields) _
      (mkBlockAfter sigGenericCoin gasFields) _ rfl rfl rfl⟩,
   ⟨rfl, C1_classification_outcomes.2.2.2.2.2.2.1 sampleDescriptor (mkBlock sigNft nftFields) _
      (mkBlockAfter sigNft nftFields) _ rfl rfl rfl⟩,
   ⟨rfl, C1_classification_outcomes.2.2.2.2.2.2.2 sampleDescriptor (mkBlock sigOtherSys idOnlyFields) _
      (mkBlockAfter sigOtherSys idOnlyFields) _ sigOtherSys "foo" "Bar" rfl rfl rfl rfl
      (by decide) (by decide)⟩⟩

/-- Counterexample to C2 as stated: `0x2::foo::Bar` is a well-formed
    three-part signature whose `pkg::module` is neither `0x2::coin` nor
    `0x2::devnet_nft`, yet both classifiers return the generic fallback
    variant, not the structured-data variant. -/
theorem C2_structured_data_counterexample :
    Except.map ObjectRead.isDataType
        (from_object_type sampleDescriptor (mkBlock sigOtherSys idOnlyFields)).1 = .ok false ∧
    Except.map ObjectInfo.variant (from_object_descriptor (mkDescInput sigOtherSys)) =
      .ok .generic :=
  ⟨rfl, rfl⟩

/-- C2 amended: the structured-data variant is chosen exactly when the
    three-part signature's package is not `"0x2"` (not merely when
    `pkg::module` differs from `0x2::coin` and `0x2::devnet_nft`); for such
    signatures the object's `package`/`module`/`structure` accessors equal
    the three parsed components. -/
theorem C2_structured_data_amended :
    (∀ (indata : JEntries) (d : ObjectInfo) (ts p m r : String),
        dget indata "type" = .ok (.jstr ts) → pySplit2 ts = [p, m, r] → p ≠ "0x2" →
        from_object_descriptor indata = .ok d → d.variant = .dataTag) ∧
    (∀ (desc : ObjectInfo) (inblock : JEntries) (o : ObjectRead) (blk' d0 : JEntries)
        (ts p m r : String),
        from_object_type desc inblock = (.ok o, blk') →
        dget inblock "data" = .ok (.jobj d0) →
        dget d0 "type" = .ok (.jstr ts) → pySplit2 ts = [p, m, r] → p ≠ "0x2" →
        o.tagOf = .dataTag ∧ o.package = .ok p ∧ o.module = .ok m ∧
          o.structureName = .ok r) := by
  constructor
  · intro indata d ts p m r hty hsp hp h
    exact fod_variant_of_cls hty (cls_data3 hsp hp) h
  · intro desc inblock o blk' d0 ts p m r h hd hty hsp hp
    have htag := fot_tag_of_cls h hd hty (cls_data3 hsp hp)
    obtain ⟨d0', ptx, sr, hd', hp', hs', hofd, hblk⟩ := fot_inv h
    rw [hd] at hd'
    injection hd' with h1
    injection h1 with h2
    subst h2
    obtain ⟨ts', core, fents, hty2, hcl2, hmk, hf, ho⟩ := ofd_data_inv hofd htag
    rw [dget_mut d0 ptx sr "type" (by decide) (by decide), hty] at hty2
    injection hty2 with h3
    injection h3 with h4
    subst h4
    subst ho
    refine ⟨rfl, ?_, ?_, ?_⟩ <;>
      simp [ObjectRead.package, ObjectRead.module, ObjectRead.structureName,
            ObjectRead.data_definition, hsp, pmKeys, ddGet]

/-- Witness for C2's amended statement: the non-system signature
    `0xabc::mining::Miner` produces the structured-data variant with
    `package`/`module`/`structure` equal to the parsed components. -/
theorem C2_structured_data_amended_witness :
    (from_object_descriptor (mkDescInput sigData) = .ok (mkDescOut sigData .dataTag)
      ∧ (mkDescOut sigData .dataTag).variant = .dataTag) ∧
    ((from_object_type sampleDescriptor (mkBlock sigData dataFields)).1 =
        .ok (.suiDataType (mkCoreOut sigData dataFields)
              [("package", "0xabc"), ("module", "mining"), ("structure", "Miner")]
              (.cons "power" (.jnum 7) (.cons "label" (.jstr "mine") .nil)) [])
      ∧ (ObjectRead.suiDataType (mkCoreOut sigData dataFields)
              [("package", "0xabc"), ("module", "mining"), ("structure", "Miner")]
              (.cons "power" (.jnum 7) (.cons "label" (.jstr "mine") .nil)) []).tagOf = .dataTag
      ∧ (ObjectRead.suiDataType (mkCoreOut sigData dataFields)
              [("package", "0xabc"), ("module", "mining"), ("structure", "Miner")]
              (.cons "power" (.jnum 7) (.cons "label" (.jstr "mine") .nil)) []).package = .ok "0xabc"
      ∧ (ObjectRead.suiDataType (mkCoreOut sigData dataFields)
              [("package", "0xabc"), ("module", "mining"), ("structure", "Miner")]
              (.cons "power" (.jnum 7) (.cons "label" (.jstr "mine") .nil)) []).module = .ok "mining"
      ∧ (ObjectRead.suiDataType (mkCoreOut sigData dataFields)
              [("package", "0xabc"), ("module", "mining"), ("structure", "Miner")]
              (.cons "power" (.jnum 7) (.cons "label" (.jstr "mine") .nil)) []).structureName = .ok "Miner") :=
  ⟨⟨rfl, C2_structured_data_amended.1 (mkDescInput sigData) _ sigData "0xabc" "mining" "Miner"
      rfl rfl (by decide) rfl⟩,
   rfl,
   (C2_structured_data_amended.2 sampleDescriptor (mkBlock sigData dataFields) _
      (mkBlockAfter sigData dataFields) _ sigData "0xabc" "mining" "Miner"
      rfl rfl rfl rfl (by decide)).1,
   (C2_structured_data_amended.2 sampleDescriptor (mkBlock sigData dataFields) _
      (mkBlockAfter sigData dataFields) _ sigData "0xabc" "mining" "Miner"
      rfl rfl rfl rfl (by decide)).2.1,
   (C2_structured_data_amended.2 sampleDescriptor (mkBlock sigData dataFields) _
      (mkBlockAfter sigData dataFields) _ sigData "0xabc" "mining" "Miner"
      rfl rfl rfl rfl (by decide)).2.2.1,
   (C2_structured_data_amended.2 sampleDescriptor (mkBlock sigData dataFields) _
      (mkBlockAfter sigData dataFields) _ sigData "0xabc" "mining" "Miner"
      rfl rfl rfl rfl (by decide)).2.2.2⟩

/-- C3: every object built by the Object Classifier delegates `version`
    and `digest` to its attached descriptor; it stores no copy of its own,
    so the equalities hold whatever the content block contained. -/
theorem C3_version_digest_proxy :
    ∀ (desc : ObjectInfo) (inblock : JEntries) (o : ObjectRead) (blk' : JEntries),
      from_object_type desc inblock = (.ok o, blk') →
      o.descriptor = desc ∧ o.version = desc.version ∧ o.digest = desc.digest := by
  intro desc inblock o blk' h
  obtain ⟨d0, ptx, sr, hd, hp, hs, hofd, hblk⟩ := fot_inv h
  obtain ⟨ts, tag, core, hty, hcl, hmk, hco, htag⟩ := ofd_inv hofd
  have hdesc := (mkCore_inv hmk).1
  refine ⟨?_, ?_, ?_⟩
  · show o.core.descriptor = desc
    rw [hco, hdesc]
  · show o.core.descriptor.version = desc.version
    rw [hco, hdesc]
  · show o.core.descriptor.digest = desc.digest
    rw [hco, hdesc]

/-- Witness for C3: a concrete content block whose `data` mapping has no
    `version` or `digest` entry still yields an object whose `version` and
    `digest` equal the attached descriptor's. -/
theorem C3_version_digest_proxy_witness :
    dget (mkDataAfter sigOtherSys idOnlyFields) "version" = .error (.keyError "version") ∧
    dget (mkDataAfter sigOtherSys idOnlyFields) "digest" = .error (.keyError "digest") ∧
    from_object_type sampleDescriptor (mkBlock sigOtherSys idOnlyFields) =
      (.ok (.objectRead (mkCoreOut sigOtherSys idOnlyFields)), mkBlockAfter sigOtherSys idOnlyFields) ∧
    (ObjectRead.objectRead (mkCoreOut sigOtherSys idOnlyFields)).descriptor = sampleDescriptor ∧
    (ObjectRead.objectRead (mkCoreOut sigOtherSys idOnlyFields)).version = sampleDescriptor.version ∧
    (ObjectRead.objectRead (mkCoreOut sigOtherSys idOnlyFields)).digest = sampleDescriptor.digest :=
  ⟨rfl, rfl, rfl,
   (C3_version_digest_proxy sampleDescriptor (mkBlock sigOtherSys idOnlyFields) _
      (mkBlockAfter sigOtherSys idOnlyFields) rfl).1,
   (C3_version_digest_proxy sampleDescriptor (mkBlock sigOtherSys idOnlyFields) _
      (mkBlockAfter sigOtherSys idOnlyFields) rfl).2.1,
   (C3_version_digest_proxy sampleDescriptor (mkBlock sigOtherSys idOnlyFields) _
      (mkBlockAfter sigOtherSys idOnlyFields) rfl).2.2⟩

/-- Counterexample to C4 as stated: on the input `\x7b"type": "0x2"\x7d`
    the key `objectId` is absent, yet the Descriptor Classifier raises an
    index-out-of-range error from parsing the signature, not a
    missing-field error; and on the empty mapping the missing-field error
    it raises names `type`, not `objectId` - so the classifier does not
    fail on the missing `objectId` before reading any other field. -/
theorem C4_missing_objectId_counterexample :
    dget (JEntries.cons "type" (.jstr "0x2") .nil) "objectId" = .error (.keyError "objectId") ∧
    from_object_descriptor (JEntries.cons "type" (.jstr "0x2") .nil) = .error .indexError ∧
    from_object_descriptor .nil = .error (.keyError "type") :=
  ⟨rfl, rfl, rfl⟩

/-- C4 amended: the classifier reads and classifies `type` first; when
    classification succeeds and `objectId` is absent, construction raises
    the missing-key error for `objectId` before reading any of the
    remaining fields (the theorem needs no assumption on `version`,
    `digest`, `owner` or `previousTransaction`), and no descriptor is
    returned. -/
theorem C4_missing_objectId_amended :
    (∀ (indata : JEntries) (ts : String) (tag : SuiTypeTag),
        dget indata "type" = .ok (.jstr ts) → classifySignature ts = .ok tag →
        dget indata "objectId" = .error (.keyError "objectId") →
        from_object_descriptor indata = .error (.keyError "objectId")) ∧
    (∀ indata : JEntries,
        dget indata "type" = .error (.keyError "type") →
        from_object_descriptor indata = .error (.keyError "type")) := by
  constructor
  · intro indata ts tag hty hcl hoid
    rw [fod_eval hty hcl]
    exact mkObjectInfo_err_objectId hoid
  · intro indata hty
    exact fod_err_type hty

/-- Witness for C4's amended statement: with only a classifiable `type`
    present the error is the missing `objectId`; with nothing present the
    error is the missing `type`. -/
theorem C4_missing_objectId_amended_witness :
    from_object_descriptor (JEntries.cons "type" (.jstr sigOtherSys) .nil) =
      .error (.keyError "objectId") ∧
    from_object_descriptor .nil = .error (.keyError "type") :=
  ⟨C4_missing_objectId_amended.1 (JEntries.cons "type" (.jstr sigOtherSys) .nil)
      sigOtherSys .generic rfl rfl rfl,
   C4_missing_objectId_amended.2 .nil rfl⟩

/-- Counterexample to C5 as stated: the malformed signature `a::b` (two
    components, not three) does not make classification fail - the
    classifier returns a successfully constructed generic descriptor, and
    no `FormatError` exists in the module. -/
theorem C5_format_error_counterexample :
    from_object_descriptor (mkDescInput sigShort) = .ok (mkDescOut sigShort .generic) :=
  rfl

/-- C5 amended: there is no `FormatError` in the code, and a signature
    that does not match the three-part shape is usually not an error:
    when the first component differs from `"0x2"`, or equals `"0x2"` with
    a present module other than `coin` and `devnet_nft`, it classifies as
    the generic fallback.  Python's `IndexError` is raised exactly when an
    out-of-range list index is hit: the signature is just `"0x2"` (module
    missing), or `"0x2::coin"` or `"0x2::devnet_nft"` (residual missing
    for a matched module), or the coin-generic unwrap yields fewer than
    three inner components; `from_object_descriptor` propagates that
    error to the caller. -/
theorem C5_malformed_signature_amended :
    (∀ (ts p : String), pySplit2 ts = [p] → p ≠ "0x2" →
        classifySignature ts = .ok .generic) ∧
    (∀ (ts p m : String), pySplit2 ts = [p, m] → p ≠ "0x2" →
        classifySignature ts = .ok .generic) ∧
    (∀ (ts m : String), pySplit2 ts = ["0x2", m] → m ≠ "coin" → m ≠ "devnet_nft" →
        classifySignature ts = .ok .generic) ∧
    (∀ ts : String, pySplit2 ts = ["0x2"] →
        classifySignature ts = .error .indexError) ∧
    (∀ ts : String, pySplit2 ts = ["0x2", "coin"] →
        classifySignature ts = .error .indexError) ∧
    (∀ ts : String, pySplit2 ts = ["0x2", "devnet_nft"] →
        classifySignature ts = .error .indexError) ∧
    (∀ (ts r : String), pySplit2 ts = ["0x2", "coin", r] →
        (pySplitAll (pySlice5m1 r)).length ≤ 2 →
        classifySignature ts = .error .indexError) ∧
    (∀ (indata : JEntries) (ts : String) (e : SuiErr),
        dget indata "type" = .ok (.jstr ts) → classifySignature ts = .error e →
        from_object_descriptor indata = .error e) :=
  ⟨fun _ _ h hp => cls_gen1 h hp, fun _ _ _ h hp => cls_gen2 h hp,
   fun _ _ h hm1 hm2 => cls_gen2_0x2 h hm1 hm2,
   fun _ h => cls_idx1 h, fun _ h => cls_idx2coin h, fun _ h => cls_idx2devnet h,
   fun _ _ h hl => cls_idx_unwrap h hl,
   fun _ _ _ hty hcl => fod_err_cls hty hcl⟩

/-- Witness for C5's amended statement on concrete malformed signatures:
    the fall-through cases succeed as the generic fallback (including
    `0x2::foo`, whose module matches no case) and the out-of-range cases
    raise `IndexError`. -/
theorem C5_malformed_signature_amended_witness :
    classifySignature "abc" = .ok .generic ∧
    classifySignature "a::b" = .ok .generic ∧
    classifySignature "0x2::foo" = .ok .generic ∧
    classifySignature "0x2" = .error .indexError ∧
    classifySignature "0x2::coin" = .error .indexError ∧
    classifySignature "0x2::devnet_nft" = .error .indexError ∧
    classifySignature "0x2::coin::Coin<SUI>" = .error .indexError ∧
    from_object_descriptor (JEntries.cons "type" (.jstr "0x2::coin::Coin<SUI>") .nil) =
      .error .indexError :=
  ⟨C5_malformed_signature_amended.1 "abc" "abc" rfl (by decide),
   C5_malformed_signature_amended.2.1 "a::b" "a" "b" rfl (by decide),
   C5_malformed_signature_amended.2.2.1 "0x2::foo" "foo" rfl (by decide) (by decide),
   C5_malformed_signature_amended.2.2.2.1 "0x2" rfl,
   C5_malformed_signature_amended.2.2.2.2.1 "0x2::coin" rfl,
   C5_malformed_signature_amended.2.2.2.2.2.1 "0x2::devnet_nft" rfl,
   C5_malformed_signature_amended.2.2.2.2.2.2.1 "0x2::coin::Coin<SUI>" "Coin<SUI>" rfl (by decide),
   C5_malformed_signature_amended.2.2.2.2.2.2.2 (JEntries.cons "type" (.jstr "0x2::coin::Coin<SUI>") .nil)
     "0x2::coin::Coin<SUI>" .indexError rfl rfl⟩

/-- C6: parsing the string produced by `json()` on a constructed
    descriptor or object recovers exactly the raw mapping the instance
    retained (its `_type_raw`): the whole input mapping for a descriptor,
    and for an object the content's `data` mapping as it stands after the
    two copied keys - serialization is lossless over the retained fields
    (for inputs whose strings need no JSON escaping). -/
theorem C6_json_roundtrip :
    (∀ (indata : JEntries) (d : ObjectInfo),
        from_object_descriptor indata = .ok d → cleanE indata = true →
        jparse (ObjectInfo.json d) = some (.jobj indata)) ∧
    (∀ (desc : ObjectInfo) (inblock : JEntries) (o : ObjectRead) (blk' d2 : JEntries),
        from_object_type desc inblock = (.ok o, blk') →
        dget blk' "data" = .ok (.jobj d2) → cleanE d2 = true →
        jparse (ObjectRead.json o) = some (.jobj d2)) := by
  constructor
  · intro indata d h hcl
    obtain ⟨ts, tag, hty, hclty, hmk⟩ := fod_inv h
    have hraw := (mkObjectInfo_inv hmk).2
    show jparse (jdumps (.jobj d.type_raw)) = some (.jobj indata)
    rw [hraw]
    exact jparse_jdumps (by simpa [cleanV] using hcl)
  · intro desc inblock o blk' d2 h hd2 hcl
    obtain ⟨d0, ptx, sr, hd, hp, hs, hofd, hblk⟩ := fot_inv h
    subst hblk
    rw [dget_dset_self] at hd2
    injection hd2 with h1
    injection h1 with h2
    obtain ⟨ts, tag, core, hty, hclty, hmk, hco, htag⟩ := ofd_inv hofd
    have hraw := (mkCore_inv hmk).2.1
    show jparse (jdumps (.jobj o.core.type_raw)) = some (.jobj d2)
    rw [hco, hraw, ← h2]
    exact jparse_jdumps (by simpa [cleanV, h2] using hcl)

/-- Witness for C6: concrete round trips through `json()` for a
    constructed descriptor and a constructed object. -/
theorem C6_json_roundtrip_witness :
    from_object_descriptor (mkDescInput sigData) = .ok (mkDescOut sigData .dataTag) ∧
    cleanE (mkDescInput sigData) = true ∧
    jparse (ObjectInfo.json (mkDescOut sigData .dataTag)) = some (.jobj (mkDescInput sigData)) ∧
    cleanE (mkDataAfter sigOtherSys idOnlyFields) = true ∧
    jparse (ObjectRead.json (ObjectRead.objectRead (mkCoreOut sigOtherSys idOnlyFields))) =
      some (.jobj (mkDataAfter sigOtherSys idOnlyFields)) :=
  ⟨rfl, rfl,
   C6_json_roundtrip.1 (mkDescInput sigData) (mkDescOut sigData .dataTag) rfl rfl,
   rfl,
   C6_json_roundtrip.2 sampleDescriptor (mkBlock sigOtherSys idOnlyFields)
     (ObjectRead.objectRead (mkCoreOut sigOtherSys idOnlyFields))
     (mkBlockAfter sigOtherSys idOnlyFields) (mkDataAfter sigOtherSys idOnlyFields)
     rfl rfl rfl⟩

/-- Counterexample to C7 as stated: `from_object_type` is not
    side-effect-free - after the call, the caller's nested `data` mapping
    holds `previousTransaction` and `storageRebate` keys it did not hold
    before. -/
theorem C7_purity_counterexample :
    dataField (mkBlock sigData dataFields) "storageRebate" = .error (.keyError "storageRebate") ∧
    dataField (from_object_type sampleDescriptor (mkBlock sigData dataFields)).2 "storageRebate" =
      .ok (.jnum 25) ∧
    dataField (mkBlock sigData dataFields) "previousTransaction" =
      .error (.keyError "previousTransaction") ∧
    dataField (from_object_type sampleDescriptor (mkBlock sigData dataFields)).2 "previousTransaction" =
      .ok (.jstr "ptx") :=
  ⟨rfl, rfl, rfl, rfl⟩

/-- C7 amended: `from_object_descriptor` only reads its input, but
    `from_object_type` mutates the caller's mapping: afterwards `inblock`
    is exactly the original with its `data` entry's mapping extended by
    the copied `previousTransaction` and `storageRebate` entries (and the
    constructed object's raw mapping aliases that mutated mapping). -/
theorem C7_mutation_amended :
    ∀ (desc : ObjectInfo) (inblock d0 : JEntries) (ptx sr : JValue),
      dget inblock "data" = .ok (.jobj d0) →
      dget inblock "previousTransaction" = .ok ptx →
      dget inblock "storageRebate" = .ok sr →
      (from_object_type desc inblock).2 =
        dset inblock "data" (.jobj (dset (dset d0 "previousTransaction" ptx) "storageRebate" sr)) := by
  intro desc inblock d0 ptx sr hd hp hs
  rw [fot_eval hd hp hs]

/-- Witness for C7's amended statement on a concrete block. -/
theorem C7_mutation_amended_witness :
    (from_object_type sampleDescriptor (mkBlock sigData dataFields)).2 =
      mkBlockAfter sigData dataFields :=
  (C7_mutation_amended sampleDescriptor (mkBlock sigData dataFields)
    (.cons "type" (.jstr sigData)
      (.cons "dataType" (.jstr "moveObject")
        (.cons "has_public_transfer" (.jbool true)
          (.cons "fields" (.jobj dataFields) .nil))))
    (.jstr "ptx") (.jnum 25) rfl rfl rfl).trans rfl

/-- C8: the `_data` mapping of a constructed structured-data object is
    exactly the content's `fields` mapping with the `id` entry removed,
    entries and order preserved verbatim. -/
theorem C8_data_copy :
    ∀ (desc : ObjectInfo) (inblock : JEntries) (o : ObjectRead) (blk' d0 fents : JEntries),
      from_object_type desc inblock = (.ok o, blk') →
      dget inblock "data" = .ok (.jobj d0) →
      dget d0 "fields" = .ok (.jobj fents) →
      o.tagOf = .dataTag →
      (JEntries.keys fents).Nodup →
      o.dataOf = fieldsExceptId fents := by
  intro desc inblock o blk' d0 fents h hd hf htag hnd
  obtain ⟨d0', ptx, sr, hd', hp, hs, hofd, hblk⟩ := fot_inv h
  rw [hd] at hd'
  injection hd' with h1
  injection h1 with h2
  subst h2
  obtain ⟨ts, core, fents', hty, hcl, hmk, hf', ho⟩ := ofd_data_inv hofd htag
  rw [dget_mut d0 ptx sr "fields" (by decide) (by decide), hf] at hf'
  injection hf' with h3
  injection h3 with h4
  subst h4
  subst ho
  show copyFields fents = fieldsExceptId fents
  exact copyFields_eq fents hnd

/-- Witness for C8: the sample fields mapping (keys `id`, `power`,
    `label`) is copied without `id`, verbatim and in order. -/
theorem C8_data_copy_witness :
    (JEntries.keys dataFields).Nodup ∧
    from_object_type sampleDescriptor (mkBlock sigData dataFields) =
      (.ok sampleDataObj, mkBlockAfter sigData dataFields) ∧
    sampleDataObj.dataOf = fieldsExceptId dataFields ∧
    fieldsExceptId dataFields = .cons "power" (.jnum 7) (.cons "label" (.jstr "mine") .nil) :=
  ⟨by decide, rfl,
   C8_data_copy sampleDescriptor (mkBlock sigData dataFields) sampleDataObj
     (mkBlockAfter sigData dataFields)
     (.cons "type" (.jstr sigData)
       (.cons "dataType" (.jstr "moveObject")
         (.cons "has_public_transfer" (.jbool true)
           (.cons "fields" (.jobj dataFields) .nil)))) dataFields
     rfl rfl rfl rfl (by decide),
   rfl⟩

/-- C9: a freshly constructed structured-data object has an empty child
    list; folding `add_child` over a list of N children yields a child
    list holding exactly those children in append order, of length N. -/
theorem C9_children_append :
    (∀ (desc : ObjectInfo) (inblock : JEntries) (o : ObjectRead) (blk' : JEntries)
        (core : ObjectReadCore) (dd : List (String × String)) (dm : JEntries)
        (cs : List ObjectRead),
        from_object_type desc inblock = (.ok o, blk') →
        o = .suiDataType core dd dm cs → cs = []) ∧
    (∀ (o : ObjectRead) (xs : List ObjectRead), o.isDataType = true →
        (xs.foldl add_child o).children = o.children ++ xs) ∧
    (∀ (o : ObjectRead) (xs : List ObjectRead), o.isDataType = true →
        ((xs.foldl add_child o).children).length = o.children.length + xs.length) := by
  refine ⟨?_, ?_, ?_⟩
  · intro desc inblock o blk' core dd dm cs h ho
    have htag : o.tagOf = .dataTag := by rw [ho]; rfl
    obtain ⟨d0, ptx, sr, hd, hp, hs, hofd, hblk⟩ := fot_inv h
    obtain ⟨ts, core2, fents, hty, hcl, hmk, hf, ho2⟩ := ofd_data_inv hofd htag
    rw [ho] at ho2
    injection ho2 with a b c d
  · intro o xs ho
    exact foldl_add_child xs o ho
  · intro o xs ho
    rw [foldl_add_child xs o ho]
    simp

/-- Witness for C9: the sample structured-data object starts with no
    children and appending two children yields them in order. -/
theorem C9_children_append_witness :
    from_object_type sampleDescriptor (mkBlock sigData dataFields) =
      (.ok sampleDataObj, mkBlockAfter sigData dataFields) ∧
    sampleDataObj.children = [] ∧
    (([sampleDataObj, sampleDataObj] : List ObjectRead).foldl add_child sampleDataObj).children =
      sampleDataObj.children ++ [sampleDataObj, sampleDataObj] ∧
    ((([sampleDataObj, sampleDataObj] : List ObjectRead).foldl add_child sampleDataObj).children).length =
      sampleDataObj.children.length + 2 :=
  ⟨rfl,
   C9_children_append.1 sampleDescriptor (mkBlock sigData dataFields) sampleDataObj
     (mkBlockAfter sigData dataFields) (mkCoreOut sigData dataFields)
     [("package", "0xabc"), ("module", "mining"), ("structure", "Miner")]
     (.cons "power" (.jnum 7) (.cons "label" (.jstr "mine") .nil)) []
     rfl rfl,
   C9_children_append.2.1 sampleDataObj [sampleDataObj, sampleDataObj] rfl,
   C9_children_append.2.2 sampleDataObj [sampleDataObj, sampleDataObj] rfl⟩

/-- C10: the identifier of a constructed object is taken solely from the
    content block's `data.fields.id.id` value, for any supplied
    descriptor; the classifier never compares it with the descriptor's
    own identifier, so the two may differ without an error. -/
theorem C10_identifier_from_content :
    ∀ (desc : ObjectInfo) (inblock : JEntries) (o : ObjectRead) (blk' d0 : JEntries)
      (fv iv idv : JValue),
      from_object_type desc inblock = (.ok o, blk') →
      dget inblock "data" = .ok (.jobj d0) →
      dget d0 "fields" = .ok fv → vget fv "id" = .ok iv → vget iv "id" = .ok idv →
      o.core.identifier = idv := by
  intro desc inblock o blk' d0 fv iv idv h hd hf hi hii
  obtain ⟨d0', ptx, sr, hd', hp, hs, hofd, hblk⟩ := fot_inv h
  rw [hd] at hd'
  injection hd' with h1
  injection h1 with h2
  subst h2
  obtain ⟨ts, tag, core, hty, hcl, hmk, hco, htag⟩ := ofd_inv hofd
  obtain ⟨fv', iv', hf', hi', hii'⟩ := (mkCore_inv hmk).2.2
  rw [dget_mut d0 ptx sr "fields" (by decide) (by decide), hf] at hf'
  injection hf' with h3
  subst h3
  rw [hi] at hi'
  injection hi' with h4
  subst h4
  rw [hii] at hii'
  injection hii' with h5
  rw [hco, ← h5]

/-- Witness for C10: the sample run succeeds although the content block's
    `fields.id.id` (`"0xchild"`) differs from the supplied descriptor's
    own identifier (`"0xobj"`), and the object carries the content's
    identifier. -/
theorem C10_identifier_from_content_witness :
    (from_object_type sampleDescriptor (mkBlock sigData dataFields)).1 = .ok sampleDataObj ∧
    sampleDataObj.core.identifier = .jstr "0xchild" ∧
    sampleDescriptor.identifier = .jstr "0xobj" ∧
    ¬(sampleDataObj.core.identifier = sampleDescriptor.identifier) :=
  ⟨rfl,
   C10_identifier_from_content sampleDescriptor (mkBlock sigData dataFields) sampleDataObj
     (mkBlockAfter sigData dataFields)
     (.cons "type" (.jstr sigData)
       (.cons "dataType" (.jstr "moveObject")
         (.cons "has_public_transfer" (.jbool true)
           (.cons "fields" (.jobj dataFields) .nil))))
     (.jobj dataFields) (.jobj (.cons "id" (.jstr "0xchild") .nil)) (.jstr "0xchild")
     rfl rfl rfl rfl rfl,
   rfl,
   fun hcontra => by
     have h1 : sampleDataObj.core.identifier = .jstr "0xchild" := rfl
     have h2 : sampleDescriptor.identifier = .jstr "0xobj" := rfl
     rw [h1, h2] at hcontra
     injection hcontra with hs
     exact absurd hs (by decide)⟩
